import Mathlib

/-!
Verification of the wallet-go authenticated transport layer.

This file is a shallow embedding of the request executor of the wallet
package (the `query` function of doc.go, lines 234-331, together with the
credential source of wallet.go and doc.go) and proofs of the behavioural
claims about it.

Modelling conventions:
- Byte strings are `List Nat` (one entry per byte).
- Go `time.Duration` values are `Int` nanoseconds; the product
  `time.Duration(i) * time.Second` computed by the rate-limit branch wraps
  at 64 bits exactly as Go int64 multiplication does, which `int64wrap`
  makes explicit.
- One call to `HTTPClient.Do` is one element of a scripted list of
  `Response` values; an exhausted script stands for a transport error
  (`Do` returning a non-nil error).
- `json.Decode` of an error body is modelled best-effort, as Go
  encoding/json behaves: the scripted response lists which of the three
  JSON fields the decode attempt populates into the target struct
  (fields that are present and well-typed in the body), and separately
  whether Decode returns nil; a failed decode has still populated those
  fields, overwriting the initialized values, before the error is
  reported.
- Ambient effects of an attempt (the current time, the random nonce, the
  result of the caller-supplied credentials loader) are read from a
  `World`, a family of oracles indexed by the attempt number.
-/

namespace Wallet

/-- The structured error type of the package (doc.go, lines 219-223):
statusCode, taxonomy code and human readable message. -/
structure Error where
  statusCode : Nat
  code : String
  message : String
deriving DecidableEq, Repr

/-- Credentials held by the client (wallet.go, lines 88-91). -/
structure Cred where
  keyID : String
  privateKeyPEM : List Nat
deriving DecidableEq, Repr

/-- Result of one invocation of a credentials loader: either a credential
pair or a Go error message. -/
inductive LoaderRes where
  | ok (cred : Cred)
  | err (msg : String)
deriving DecidableEq, Repr

/-- Client options (wallet.go, lines 24-52). `hasLoader` models whether
`CredentialsLoaderFunc` is non-nil; the loader itself is invoked through
the `World` oracle. `maxReadRetry` and `retryInterval` are Go ints
(int and int64 nanoseconds). -/
structure Options where
  hasLoader : Bool
  maxReadRetry : Int
  retryInterval : Int
  debug : Bool
deriving DecidableEq, Repr

/-- The client (wallet.go, lines 19-22). -/
structure Client where
  options : Options
  credentials : Option Cred
deriving DecidableEq, Repr

/-- One scripted HTTP response. `retryAfter` is the value of the
Retry-After header, the empty string when the header is absent, as
returned by Go `Header.Get`. The `errBody` fields describe the decode of
the body into the `Error` struct: `errBodyDecodes` is whether Decode
returns nil, and the three option fields are the JSON fields the decode
attempt populates (present and well-typed in the body) — Go populates
them best-effort even when Decode then reports an error, and absent or
ill-typed fields keep the initialized value. -/
structure Response where
  statusCode : Nat
  status : String
  retryAfter : String
  errBodyDecodes : Bool
  errBodyStatusCode : Option Nat
  errBodyCode : Option String
  errBodyMessage : Option String
  okBodyDecodes : Bool
deriving DecidableEq, Repr

/-- Ambient effects, indexed by the attempt number: the loader result if
`CredentialsLoaderFunc` were invoked at that attempt, the current time
(nanoseconds, abstract origin) and the random nonce drawn at that
attempt. -/
structure World where
  loader : Nat → LoaderRes
  now : Nat → Nat
  nonce : Nat → String

/-- The claim set bound into one signed token. Field names follow the
decoded claim set of the spec: kid, sub, iat, exp, nonce, bodyHash, uri. -/
structure Token where
  sub : String
  kid : String
  iat : Nat
  exp : Nat
  nonce : String
  bodyHash : String
  uri : String
deriving DecidableEq, Repr

/-- Modelled from the spec: the fixed subject constant of the claim set
(spec 4.2, "subject is a fixed, implementation-wide constant"); the
constant itself is in the token builder, which is not under src/, so its
value here is a stand-in. -/
def tokenSubject : String := "wallet-go-sdk"

/-- Validity window passed by `query` to the token builder:
1*time.Hour in nanoseconds (doc.go, line 274). -/
def hourNs : Nat := 3600000000000

/-- Modelled from the spec: `newToken` is not under src/ (only its callers
and tests are). Per spec 4.2 the builder receives the key id, the route,
the exact serialized body bytes and the validity duration, and produces a
claim set whose bodyHash is the digest of the body bytes, whose nonce is
the fresh random value, and whose iat is the current time with
exp = iat + validity. The digest itself is abstracted as the function
argument `digest`; the `_cleanup` flag mirrors the fifth Go argument
(best-effort memory clearing, no effect on the claim set). -/
def newToken (digest : List Nat → String) (keyID : String) (uri : String)
    (body : List Nat) (validity : Nat) (_cleanup : Bool)
    (now : Nat) (nonce : String) : Token :=
  { sub := tokenSubject
    kid := keyID
    iat := now
    exp := now + validity
    nonce := nonce
    bodyHash := digest body
    uri := uri }

/-- The configuration error message of `defaultCredentialsLoaderFunc`
(doc.go, line 335). -/
def credentialsNotSetMessage : String :=
  "credentials are not set. You may either use SetCredentials or provide CredentialsLoaderFunc upon client initialization."

/-- The static credential source (doc.go, lines 333-338): fail if no
credentials were ever stored, otherwise return the stored pair. -/
def defaultCredentialsLoaderFunc (c : Client) : LoaderRes :=
  match c.credentials with
  | none => .err credentialsNotSetMessage
  | some cred => .ok cred

/-- The credential step of one attempt (doc.go, lines 262-272): when no
loader function is configured use the static source, otherwise invoke the
loader afresh. -/
def credAt (c : Client) (w : World) (i : Nat) : LoaderRes :=
  if c.options.hasLoader then w.loader i else defaultCredentialsLoaderFunc c

/-- SetCredentials (wallet.go, lines 95-106): ignored (up to a debug log)
when a loader function is configured, otherwise stores the pair. -/
def setCredentials (c : Client) (keyID : String) (privateKeyPEM : List Nat) : Client :=
  if c.options.hasLoader then c
  else { options := c.options, credentials := some ⟨keyID, privateKeyPEM⟩ }

/-- bytes.TrimRight(b, newline) (doc.go, line 251): remove every trailing
newline byte (0x0A) from the encoded envelope. -/
def trimRightNewline (bs : List Nat) : List Nat :=
  (bs.reverse.dropWhile (fun b => b = 10)).reverse

/-- Decimal digit value of a character, none when not a digit. -/
def digitVal (ch : Char) : Option Nat :=
  if 48 ≤ ch.toNat ∧ ch.toNat ≤ 57 then some (ch.toNat - 48) else none

/-- Accumulating decimal parse over characters; fails on the first
non-digit. -/
def parseDigitsAux : List Char → Nat → Option Nat
  | [], acc => some acc
  | ch :: rest, acc =>
    match digitVal ch with
    | none => none
    | some d => parseDigitsAux rest (acc * 10 + d)

/-- Decimal parse requiring at least one digit. -/
def parseDigits : List Char → Option Nat
  | [] => none
  | cs => parseDigitsAux cs 0

/-- strconv.ParseInt(s, 10, 64) as used on the Retry-After header
(doc.go, line 312): optional single sign, at least one decimal digit, no
other characters, and the value must fit in int64. -/
def parseInt64 (s : String) : Option Int :=
  match s.data with
  | [] => none
  | ch :: rest =>
    let neg := ch = '-'
    let ds := if ch = '-' ∨ ch = '+' then rest else ch :: rest
    match parseDigits ds with
    | none => none
    | some n =>
      if neg then
        if n ≤ 2 ^ 63 then some (-(n : Int)) else none
      else
        if n ≤ 2 ^ 63 - 1 then some (n : Int) else none

/-- Two-complement wraparound of Go int64 arithmetic, needed for the
product time.Duration(i) * time.Second (doc.go, line 316). -/
def int64wrap (n : Int) : Int :=
  (n + 2 ^ 63) % 2 ^ 64 - 2 ^ 63

/-- The merged result of a decode attempt of an error body into a struct
initialized with the response status code (doc.go, lines 304-309): the
fields the decoder populates overwrite, the others keep the initialized
values. Go json.Decode populates well-typed fields best-effort before
reporting any error, so this merge is the struct the program holds on
the success path and on the decode-failure return alike. -/
def decodedErrOf (resp : Response) : Error :=
  { statusCode := resp.errBodyStatusCode.getD resp.statusCode
    code := resp.errBodyCode.getD ""
    message := resp.errBodyMessage.getD "" }

/-- Observable events of one executor run: a request transmitted (with the
claim set of its bearer token and its exact body bytes), or a call to
time.Sleep with a duration in nanoseconds. -/
inductive Event where
  | sent (tok : Token) (body : List Nat)
  | slept (d : Int)
deriving DecidableEq, Repr

/-- The value returned by the executor, classified by the Go return
statements of `query`. -/
inductive QOutcome where
  | success
  | outputDecodeError
  | sdkError (e : Error)
  | credError (msg : String)
  | transportError
deriving DecidableEq, Repr

/-- The retry loop of `query` (doc.go, lines 234-331), parameterized by
the route so that the command executor can share it (per spec section 9
the source applies the same retry path uniformly to read and write
helpers). One recursive call is one pass through the `retry` label:
re-encode the envelope, trim the trailing newline, obtain credentials
(returning at once on failure), build and sign a fresh token, perform the
HTTP call, then classify: status below 400 decodes the output; otherwise
decode the error body into the struct initialized with the status code
(on decode failure, return at once the struct as best-effort populated
by the failed decode); status 429 with a parseable Retry-After header sleeps that many
seconds (int64 nanosecond arithmetic) and retries without touching the
counter; status 500 and above sleeps the configured interval and retries
while the counter is below the configured maximum minus one; any other
status returns the decoded error. -/
def runOpAux (digest : List Nat → String) (uri : String) (c : Client) (w : World)
    (envelope : List Nat) : Nat → List Response → Nat → List Event × QOutcome
  | a, [], _ =>
    match credAt c w a with
    | .err m => ([], .credError m)
    | .ok cred =>
      ([.sent (newToken digest cred.keyID uri (trimRightNewline envelope) hourNs
          c.options.hasLoader (w.now a) (w.nonce a)) (trimRightNewline envelope)],
        .transportError)
  | a, resp :: rest, retried =>
    match credAt c w a with
    | .err m => ([], .credError m)
    | .ok cred =>
      let reqBody := trimRightNewline envelope
      let tok := newToken digest cred.keyID uri reqBody hourNs
        c.options.hasLoader (w.now a) (w.nonce a)
      if 400 ≤ resp.statusCode then
        if resp.errBodyDecodes then
          if resp.statusCode = 429 then
            match parseInt64 resp.retryAfter with
            | none => ([.sent tok reqBody], .sdkError (decodedErrOf resp))
            | some i =>
              let r1 := runOpAux digest uri c w envelope (a + 1) rest retried
              (.sent tok reqBody :: .slept (int64wrap (i * 1000000000)) :: r1.1, r1.2)
          else if 500 ≤ resp.statusCode then
            if c.options.maxReadRetry - 1 ≤ (retried : Int) then
              ([.sent tok reqBody], .sdkError (decodedErrOf resp))
            else
              let r1 := runOpAux digest uri c w envelope (a + 1) rest (retried + 1)
              (.sent tok reqBody :: .slept c.options.retryInterval :: r1.1, r1.2)
          else
            ([.sent tok reqBody], .sdkError (decodedErrOf resp))
        else
          ([.sent tok reqBody], .sdkError (decodedErrOf resp))
      else
        ([.sent tok reqBody], if resp.okBodyDecodes then .success else .outputDecodeError)

/-- A query operation (doc.go, line 234): the retry loop on route /query,
starting at attempt 0 with a zero retry counter. `envelope` is the JSON
encoding of the name/payload envelope as produced by json.Encoder.Encode,
trailing newline included. -/
def runQuery (digest : List Nat → String) (c : Client) (w : World)
    (envelope : List Nat) (resps : List Response) : List Event × QOutcome :=
  runOpAux digest "/query" c w envelope 0 resps 0

/-- Modelled from the spec: the `command` function is not under src/ (only
its callers are, e.g. wallet.go line 1573). Spec section 9 states that the
source applies the same retry path uniformly to read and write operation
helpers, and spec section 6 gives the route POST /command, so the command
executor is the same loop on route /command. -/
def runCommand (digest : List Nat → String) (c : Client) (w : World)
    (envelope : List Nat) (resps : List Response) : List Event × QOutcome :=
  runOpAux digest "/command" c w envelope 0 resps 0

/-- CreateInvestmentRequest (wallet.go, lines 1572-1574) forwards its
encoded envelope to the command executor. -/
def createInvestmentRequest (digest : List Nat → String) (c : Client) (w : World)
    (envelope : List Nat) (resps : List Response) : List Event × QOutcome :=
  runCommand digest c w envelope resps

/-- The transmitted requests of a trace, each with its token and body. -/
def sentList (tr : List Event) : List (Token × List Nat) :=
  tr.filterMap fun e =>
    match e with
    | .sent t b => some (t, b)
    | .slept _ => none

/-- The sleep durations of a trace, in order. -/
def sleptList (tr : List Event) : List Int :=
  tr.filterMap fun e =>
    match e with
    | .slept d => some d
    | .sent _ _ => none

/-- The token that attempt `i` would carry, when its credential step
succeeds. -/
def tokenAt (digest : List Nat → String) (uri : String) (c : Client) (w : World)
    (envelope : List Nat) (i : Nat) : Option Token :=
  match credAt c w i with
  | .err _ => none
  | .ok cred =>
    some (newToken digest cred.keyID uri (trimRightNewline envelope) hourNs
      c.options.hasLoader (w.now i) (w.nonce i))

end Wallet

namespace Wallet

/-! ## Sample fixtures used by witnesses and counterexamples -/

/-- A concrete digest function standing in for hex SHA-256 in witnesses. -/
def sampleDigest : List Nat → String := fun bs => toString bs.length

/-- A concrete credential pair. -/
def sampleCred : Cred := ⟨"kid1", [1, 2]⟩

/-- A client with static credentials, budget 5, interval 50ms. -/
def sampleStaticClient : Client := ⟨⟨false, 5, 50000000, false⟩, some sampleCred⟩

/-- A world whose loader is never consulted, with distinct nonces. -/
def sampleWorld : World :=
  ⟨fun _ => .err "unused", fun i => 1000 + i, fun i => String.mk (List.replicate (i + 1) 'n')⟩

/-- A decodable 404 response with a structured error body. -/
def sample404 : Response :=
  ⟨404, "404 Not Found", "", true, some 404, some "NOT_FOUND", some "no such thing", true⟩

end Wallet
namespace Wallet

/-- C4: a query operation receiving a response with status in [400, 499)
other than 429 whose body decodes as a structured error returns at once
with the decoded error: the trace holds exactly one transmitted request
and no sleep, and the outcome is the decoded structured error, whatever
the remaining script, the retry counter and the configured budget. -/
theorem c4_client_error_terminal (digest : List Nat → String) (c : Client) (w : World)
    (envelope : List Nat) (a r : Nat) (resp : Response) (rest : List Response) (cred : Cred)
    (hcred : credAt c w a = .ok cred)
    (hlo : 400 ≤ resp.statusCode) (hhi : resp.statusCode < 500) (hne : resp.statusCode ≠ 429)
    (hdec : resp.errBodyDecodes = true) :
    runOpAux digest "/query" c w envelope a (resp :: rest) r =
      ([Event.sent (newToken digest cred.keyID "/query" (trimRightNewline envelope) hourNs
          c.options.hasLoader (w.now a) (w.nonce a)) (trimRightNewline envelope)],
        .sdkError (decodedErrOf resp)) := by
  have h5 : ¬ (500 ≤ resp.statusCode) := by omega
  simp only [runOpAux, hcred, hdec, if_pos hlo, if_neg hne, if_neg h5, if_true]

end Wallet
namespace Wallet

/-- C4 witness at a concrete 404 response. -/
theorem c4_witness :
    (credAt sampleStaticClient sampleWorld 0 = .ok sampleCred ∧
      400 ≤ sample404.statusCode ∧ sample404.statusCode < 500 ∧
      sample404.statusCode ≠ 429 ∧ sample404.errBodyDecodes = true) ∧
    runOpAux sampleDigest "/query" sampleStaticClient sampleWorld [] 0 [sample404, sample404] 0 =
      ([Event.sent (newToken sampleDigest sampleCred.keyID "/query" (trimRightNewline []) hourNs
          sampleStaticClient.options.hasLoader (sampleWorld.now 0) (sampleWorld.nonce 0))
          (trimRightNewline [])],
        .sdkError (decodedErrOf sample404)) :=
  ⟨by decide, c4_client_error_terminal sampleDigest sampleStaticClient sampleWorld [] 0 0
    sample404 [sample404] sampleCred (by decide) (by decide) (by decide) (by decide) (by decide)⟩

/-- C5 amended: for a non-success response (status at least 400) whose
body does not decode as a structured error, the outcome of the query
operation is the Error struct initialized from the status code alone and
then best-effort populated with the fields the failed decode processed;
the response status text never enters it (the outcome is unchanged under
any replacement of the status text), and the decode failure itself is
never the outcome. -/
theorem c5_decode_fallback_best_effort (digest : List Nat → String) (c : Client) (w : World)
    (envelope : List Nat) (a r : Nat) (resp : Response) (rest : List Response) (cred : Cred)
    (hcred : credAt c w a = .ok cred)
    (hlo : 400 ≤ resp.statusCode)
    (hdec : resp.errBodyDecodes = false) :
    (runOpAux digest "/query" c w envelope a (resp :: rest) r).2 =
      .sdkError (decodedErrOf resp) ∧
    ∀ s2 : String,
      (runOpAux digest "/query" c w envelope a ({ resp with status := s2 } :: rest) r).2 =
        .sdkError (decodedErrOf resp) := by
  constructor
  · simp only [runOpAux, hcred, hdec, if_pos hlo, Bool.false_eq_true, if_false]
  · intro s2
    simp only [runOpAux, hcred, hdec, if_pos hlo, Bool.false_eq_true, if_false, decodedErrOf]

/-- C5 counterexample: the response status text is not part of the
synthesized fallback error: a 400 response with status text
400 Bad Request and an undecodable body yields the error with status code
400 and an empty message, not the error carrying the status text. -/
theorem c5_counterexample :
    (runQuery sampleDigest sampleStaticClient sampleWorld []
        [⟨400, "400 Bad Request", "", false, none, none, none, true⟩]).2 =
      .sdkError ⟨400, "", ""⟩ ∧
    (runQuery sampleDigest sampleStaticClient sampleWorld []
        [⟨400, "400 Bad Request", "", false, none, none, none, true⟩]).2 ≠
      .sdkError ⟨400, "", "400 Bad Request"⟩ := by
  decide

/-- C5 witness at a concrete undecodable 503 response. -/
theorem c5_witness :
    (credAt sampleStaticClient sampleWorld 0 = .ok sampleCred ∧
      400 ≤ (503 : Nat) ∧ (false : Bool) = false) ∧
    ((runOpAux sampleDigest "/query" sampleStaticClient sampleWorld [] 0
        [⟨503, "503 Service Unavailable", "", false, none, none, none, true⟩] 0).2 =
      .sdkError (decodedErrOf ⟨503, "503 Service Unavailable", "", false, none, none, none, true⟩) ∧
    ∀ s2 : String,
      (runOpAux sampleDigest "/query" sampleStaticClient sampleWorld [] 0
          ({ (⟨503, "503 Service Unavailable", "", false, none, none, none, true⟩ :
            Response) with status := s2 } :: []) 0).2 =
        .sdkError (decodedErrOf
          ⟨503, "503 Service Unavailable", "", false, none, none, none, true⟩)) :=
  ⟨by decide, c5_decode_fallback_best_effort sampleDigest sampleStaticClient sampleWorld [] 0 0
    ⟨503, "503 Service Unavailable", "", false, none, none, none, true⟩ [] sampleCred
    (by decide) (by decide) (by decide)⟩

/-- C6 counterexample: the decode-failure return does not always carry
only the response status code with empty taxonomy code and message: Go
json.Decode populates well-typed fields before reporting an error, so a
400 response whose body has statusCode 999, code X and an ill-typed
message returns the error 999 X with empty message, not the
status-code-only error. -/
theorem c6_counterexample :
    (runQuery sampleDigest sampleStaticClient sampleWorld []
        [⟨400, "400 Bad Request", "", false, some 999, some "X", none, true⟩]).2 =
      .sdkError ⟨999, "X", ""⟩ ∧
    (runQuery sampleDigest sampleStaticClient sampleWorld []
        [⟨400, "400 Bad Request", "", false, some 999, some "X", none, true⟩]).2 ≠
      .sdkError ⟨400, "", ""⟩ := by
  decide

/-- C6 amended: for any response with status at least 400 whose body does
not decode as the structured error shape, the query operation returns at
once the Error struct initialized with the response status code and
best-effort populated by the failed decode (it carries only the status
code exactly when the decoder populated no field): the trace is a single
transmitted request with no sleep and no retry of any kind, whatever the
status (including 429 with a parseable Retry-After header and statuses at
least 500 with retry budget left), the remaining script, the counter and
the budget. -/
theorem c6_undecodable_body_immediate (digest : List Nat → String) (c : Client) (w : World)
    (envelope : List Nat) (a r : Nat) (resp : Response) (rest : List Response) (cred : Cred)
    (hcred : credAt c w a = .ok cred)
    (hlo : 400 ≤ resp.statusCode)
    (hdec : resp.errBodyDecodes = false) :
    runOpAux digest "/query" c w envelope a (resp :: rest) r =
      ([Event.sent (newToken digest cred.keyID "/query" (trimRightNewline envelope) hourNs
          c.options.hasLoader (w.now a) (w.nonce a)) (trimRightNewline envelope)],
        .sdkError (decodedErrOf resp)) := by
  simp only [runOpAux, hcred, hdec, if_pos hlo, Bool.false_eq_true, if_false]

/-- C6 witness: a 429 response with parseable Retry-After 2 and an
undecodable body that populated no field, with retry budget remaining,
still returns at once with the best-effort error (here status-code-only),
no sleep, no retry. -/
theorem c6_witness :
    (credAt sampleStaticClient sampleWorld 0 = .ok sampleCred ∧
      parseInt64 "2" = some 2 ∧ 400 ≤ (429 : Nat)) ∧
    runOpAux sampleDigest "/query" sampleStaticClient sampleWorld [] 0
        [⟨429, "429 Too Many Requests", "2", false, none, none, none, true⟩,
          ⟨200, "200 OK", "", true, none, none, none, true⟩] 0 =
      ([Event.sent (newToken sampleDigest sampleCred.keyID "/query" (trimRightNewline []) hourNs
          sampleStaticClient.options.hasLoader (sampleWorld.now 0) (sampleWorld.nonce 0))
          (trimRightNewline [])],
        .sdkError (decodedErrOf
          ⟨429, "429 Too Many Requests", "2", false, none, none, none, true⟩)) :=
  ⟨by decide, c6_undecodable_body_immediate sampleDigest sampleStaticClient sampleWorld [] 0 0
    ⟨429, "429 Too Many Requests", "2", false, none, none, none, true⟩
    [⟨200, "200 OK", "", true, none, none, none, true⟩] sampleCred
    (by decide) (by decide) (by decide)⟩

end Wallet
namespace Wallet

/-- C2 amended: a query operation receiving a 429 response whose body
decodes as a structured error and whose Retry-After header parses as
whole seconds i executes a sleep of duration i * 1000000000 nanoseconds
wrapped to int64 (equal to i seconds whenever that product fits in
int64) and then retries unconditionally: the run continues on the rest of
the script with the same attempt counter, for every value of the
server-error retry counter, so the rate-limit path neither increments
the counter nor is bounded by the configured maximum. -/
theorem c2_rate_limit_wait_then_retry (digest : List Nat → String) (c : Client) (w : World)
    (envelope : List Nat) (a r : Nat) (resp : Response) (rest : List Response) (cred : Cred)
    (i : Int)
    (hcred : credAt c w a = .ok cred)
    (h429 : resp.statusCode = 429)
    (hdec : resp.errBodyDecodes = true)
    (hra : parseInt64 resp.retryAfter = some i) :
    runOpAux digest "/query" c w envelope a (resp :: rest) r =
      (Event.sent (newToken digest cred.keyID "/query" (trimRightNewline envelope) hourNs
          c.options.hasLoader (w.now a) (w.nonce a)) (trimRightNewline envelope) ::
        Event.slept (int64wrap (i * 1000000000)) ::
        (runOpAux digest "/query" c w envelope (a + 1) rest r).1,
        (runOpAux digest "/query" c w envelope (a + 1) rest r).2) ∧
      (-(2 ^ 63) ≤ i * 1000000000 → i * 1000000000 < 2 ^ 63 →
        int64wrap (i * 1000000000) = i * 1000000000) := by
  constructor
  · have hlo : 400 ≤ resp.statusCode := by omega
    simp only [runOpAux, hcred, hdec, if_pos hlo, if_pos h429, hra, if_true]
  · intro h1 h2
    have hx : (i * 1000000000 + 2 ^ 63) % (2 : Int) ^ 64 = i * 1000000000 + 2 ^ 63 :=
      Int.emod_eq_of_lt (by omega) (by omega)
    simp only [int64wrap, hx]
    ring

/-- C2 counterexample: with Retry-After 10000000000 (ten billion whole
seconds, parseable by ParseInt), the Go nanosecond product overflows
int64 and the executed sleep has a negative duration, so the call does
not sleep at least ten billion seconds before its unconditional retry. -/
theorem c2_counterexample :
    parseInt64 "10000000000" = some 10000000000 ∧
    sleptList (runQuery sampleDigest sampleStaticClient sampleWorld []
        [⟨429, "429 Too Many Requests", "10000000000", true, none, none, none, true⟩]).1 =
      [int64wrap (10000000000 * 1000000000)] ∧
    int64wrap (10000000000 * 1000000000) < 0 ∧
    ∀ d ∈ sleptList (runQuery sampleDigest sampleStaticClient sampleWorld []
        [⟨429, "429 Too Many Requests", "10000000000", true, none, none, none, true⟩]).1,
      d < 10000000000 * 1000000000 := by
  refine ⟨by decide, by decide, by decide, ?_⟩
  decide

/-- C2 witness: a decodable 429 response with Retry-After 2 sleeps
exactly 2000000000 nanoseconds (the product fits in int64) and retries
with the counter unchanged. -/
theorem c2_witness :
    (credAt sampleStaticClient sampleWorld 0 = .ok sampleCred ∧
      parseInt64 "2" = some 2) ∧
    (runOpAux sampleDigest "/query" sampleStaticClient sampleWorld [] 0
        [⟨429, "429 Too Many Requests", "2", true, none, none, none, true⟩] 3 =
      (Event.sent (newToken sampleDigest sampleCred.keyID "/query" (trimRightNewline []) hourNs
          sampleStaticClient.options.hasLoader (sampleWorld.now 0) (sampleWorld.nonce 0))
          (trimRightNewline []) ::
        Event.slept (int64wrap (2 * 1000000000)) ::
        (runOpAux sampleDigest "/query" sampleStaticClient sampleWorld [] 1 [] 3).1,
        (runOpAux sampleDigest "/query" sampleStaticClient sampleWorld [] 1 [] 3).2) ∧
      (-(2 ^ 63) ≤ (2 : Int) * 1000000000 → (2 : Int) * 1000000000 < 2 ^ 63 →
        int64wrap (2 * 1000000000) = 2 * 1000000000)) :=
  ⟨⟨by decide, by decide⟩,
    c2_rate_limit_wait_then_retry sampleDigest sampleStaticClient sampleWorld [] 0 3
      ⟨429, "429 Too Many Requests", "2", true, none, none, none, true⟩ [] sampleCred 2
      (by decide) (by decide) (by decide) (by decide)⟩

end Wallet
namespace Wallet

/-- C10: on a client with no loader function configured and no stored
credentials, every query and every command invocation returns the
configuration error before any token is built or any request is sent
(the trace is empty), for every script, attempt number and counter, so
the failure is never retried. -/
theorem c10_no_credentials_config_error (digest : List Nat → String) (c : Client) (w : World)
    (envelope : List Nat) (a r : Nat) (resps : List Response)
    (hloader : c.options.hasLoader = false)
    (hcred : c.credentials = none) :
    runOpAux digest "/query" c w envelope a resps r = ([], .credError credentialsNotSetMessage) ∧
    runOpAux digest "/command" c w envelope a resps r = ([], .credError credentialsNotSetMessage) := by
  have h : credAt c w a = .err credentialsNotSetMessage := by
    simp [credAt, hloader, defaultCredentialsLoaderFunc, hcred]
  cases resps <;> simp [runOpAux, h]

/-- C10 witness: a freshly configured client with static source and no
stored credentials fails both operations with the configuration error
even with a successful response scripted. -/
theorem c10_witness :
    ((Client.mk ⟨false, 5, 50000000, false⟩ none).options.hasLoader = false ∧
      (Client.mk ⟨false, 5, 50000000, false⟩ none).credentials = none) ∧
    (runOpAux sampleDigest "/query" (Client.mk ⟨false, 5, 50000000, false⟩ none) sampleWorld [] 0
        [⟨200, "200 OK", "", true, none, none, none, true⟩] 0 =
      ([], .credError credentialsNotSetMessage) ∧
    runOpAux sampleDigest "/command" (Client.mk ⟨false, 5, 50000000, false⟩ none) sampleWorld [] 0
        [⟨200, "200 OK", "", true, none, none, none, true⟩] 0 =
      ([], .credError credentialsNotSetMessage)) :=
  ⟨⟨rfl, rfl⟩, c10_no_credentials_config_error sampleDigest
    (Client.mk ⟨false, 5, 50000000, false⟩ none) sampleWorld [] 0 0
    [⟨200, "200 OK", "", true, none, none, none, true⟩] rfl rfl⟩

/-- C9: on a client configured with a credentials loader function,
SetCredentials leaves the client unchanged, every run is independent of
the stored credentials field, and the credential step of every attempt is
the loader invocation of that attempt. -/
theorem c9_loader_wins_over_setter (digest : List Nat → String) (c : Client) (w : World)
    (envelope : List Nat) (uri keyID : String) (pem : List Nat) (x : Option Cred)
    (a r : Nat) (resps : List Response)
    (h : c.options.hasLoader = true) :
    setCredentials c keyID pem = c ∧
    runOpAux digest uri (Client.mk c.options x) w envelope a resps r =
      runOpAux digest uri c w envelope a resps r ∧
    (∀ i, credAt c w i = w.loader i) := by
  have hca : ∀ (y : Option Cred) (i : Nat), credAt (Client.mk c.options y) w i = w.loader i := by
    intro y i
    simp [credAt, h]
  have hc' : credAt c w = credAt (Client.mk c.options c.credentials) w := rfl
  refine ⟨by simp [setCredentials, h], ?_, fun i => by rw [hc', hca]⟩
  induction resps generalizing a r with
  | nil =>
    simp only [runOpAux, hca, hc']
  | cons resp rest ih =>
    simp only [runOpAux, hca, hc', ih]

/-- C9 witness: with a loader-configured client, storing other
credentials through the setter changes neither the client nor a run. -/
theorem c9_witness :
    (Client.mk ⟨true, 5, 50000000, false⟩ none).options.hasLoader = true ∧
    (setCredentials (Client.mk ⟨true, 5, 50000000, false⟩ none) "other" [9] =
      Client.mk ⟨true, 5, 50000000, false⟩ none ∧
    runOpAux sampleDigest "/query"
        (Client.mk (Client.mk ⟨true, 5, 50000000, false⟩ none).options (some ⟨"other", [9]⟩)) sampleWorld [] 0
        [sample404] 0 =
      runOpAux sampleDigest "/query" (Client.mk ⟨true, 5, 50000000, false⟩ none) sampleWorld [] 0
        [sample404] 0 ∧
    (∀ i, credAt (Client.mk ⟨true, 5, 50000000, false⟩ none) sampleWorld i = sampleWorld.loader i)) :=
  ⟨rfl, c9_loader_wins_over_setter sampleDigest (Client.mk ⟨true, 5, 50000000, false⟩ none)
    sampleWorld [] "/query" "other" [9] (some ⟨"other", [9]⟩) 0 0 [sample404] rfl⟩

end Wallet
namespace Wallet

theorem sentList_nil : sentList [] = [] := rfl

theorem sentList_sent (t : Token) (b : List Nat) (l : List Event) :
    sentList (Event.sent t b :: l) = (t, b) :: sentList l := rfl

theorem sentList_slept (d : Int) (l : List Event) :
    sentList (Event.slept d :: l) = sentList l := rfl

theorem sleptList_nil : sleptList [] = [] := rfl

theorem sleptList_sent (t : Token) (b : List Nat) (l : List Event) :
    sleptList (Event.sent t b :: l) = sleptList l := rfl

theorem sleptList_slept (d : Int) (l : List Event) :
    sleptList (Event.slept d :: l) = d :: sleptList l := rfl

/-- Shape of a run whose first pre.length + 1 scripted responses all have
status at least 500 with decodable bodies, entered with a counter that
leaves exactly pre.length further retries in the budget: every budgeted
retry is taken, each with one sleep of the configured interval, and the
outcome is the decoded error of the last consumed response. -/
theorem runOpAux_server_errors (digest : List Nat → String) (uri : String) (c : Client)
    (w : World) (envelope : List Nat) :
    ∀ (pre : List Response) (rL : Response) (rest : List Response) (a r : Nat),
    (∀ resp ∈ pre ++ [rL], 500 ≤ resp.statusCode ∧ resp.errBodyDecodes = true) →
    (∀ i, i ≤ pre.length → ∃ cred, credAt c w (a + i) = .ok cred) →
    ((r : Int) = c.options.maxReadRetry - 1 - pre.length) →
    (sentList (runOpAux digest uri c w envelope a (pre ++ rL :: rest) r).1).length
        = pre.length + 1 ∧
    sleptList (runOpAux digest uri c w envelope a (pre ++ rL :: rest) r).1
        = List.replicate pre.length c.options.retryInterval ∧
    (runOpAux digest uri c w envelope a (pre ++ rL :: rest) r).2
        = .sdkError (decodedErrOf rL) := by
  intro pre
  induction pre with
  | nil =>
    intro rL rest a r hbad hcred hr
    obtain ⟨cred, hc⟩ := hcred 0 (Nat.le_refl 0)
    rw [Nat.add_zero] at hc
    obtain ⟨h5, hdec⟩ := hbad rL (by simp)
    have h4 : 400 ≤ rL.statusCode := by omega
    have h429 : ¬ (rL.statusCode = 429) := by omega
    have hguard : c.options.maxReadRetry - 1 ≤ (r : Int) := by
      simp at hr; omega
    simp only [List.nil_append, runOpAux, hc, hdec, if_pos h4, if_neg h429, if_pos h5,
      if_pos hguard, if_true]
    simp [sentList_sent, sentList_nil, sleptList_sent, sleptList_nil]
  | cons p pre2 ih =>
    intro rL rest a r hbad hcred hr
    obtain ⟨cred, hc⟩ := hcred 0 (Nat.zero_le _)
    rw [Nat.add_zero] at hc
    obtain ⟨h5, hdec⟩ := hbad p (by simp)
    have h4 : 400 ≤ p.statusCode := by omega
    have h429 : ¬ (p.statusCode = 429) := by omega
    have hlen : ((p :: pre2).length : Int) = pre2.length + 1 := by simp
    have hguard : ¬ (c.options.maxReadRetry - 1 ≤ (r : Int)) := by
      rw [hlen] at hr; omega
    have hcred2 : ∀ i, i ≤ pre2.length → ∃ cr, credAt c w (a + 1 + i) = .ok cr := by
      intro i hi
      have : a + 1 + i = a + (i + 1) := by omega
      rw [this]
      exact hcred (i + 1) (by simpa using Nat.succ_le_succ hi)
    have hbad2 : ∀ resp ∈ pre2 ++ [rL], 500 ≤ resp.statusCode ∧ resp.errBodyDecodes = true := by
      intro resp hresp
      exact hbad resp (by simp at hresp ⊢; tauto)
    have hr2 : ((r + 1 : Nat) : Int) = c.options.maxReadRetry - 1 - pre2.length := by
      rw [hlen] at hr; push_cast; omega
    obtain ⟨ihs, ihd, iho⟩ := ih rL rest (a + 1) (r + 1) hbad2 hcred2 hr2
    simp only [List.cons_append, runOpAux, hc, hdec, if_pos h4, if_neg h429, if_pos h5,
      if_neg hguard, if_true]
    refine ⟨?_, ?_, ?_⟩
    · simp only [sentList_sent, sentList_slept, List.length_cons, List.append_eq, ihs]
    · simp only [sleptList_sent, sleptList_slept, List.length_cons, List.append_eq, ihd,
        List.replicate_succ]
    · simp only [List.append_eq, iho]

end Wallet
namespace Wallet

/-- Budget shape of a fresh run of the shared loop on any route when all
scripted responses are server errors with decodable bodies. -/
theorem runOpAux_budget (digest : List Nat → String) (uri : String) (c : Client) (w : World)
    (envelope : List Nat) (resps : List Response)
    (hM : 1 ≤ c.options.maxReadRetry)
    (hlen : c.options.maxReadRetry.toNat ≤ resps.length)
    (hbad : ∀ resp ∈ resps.take c.options.maxReadRetry.toNat,
      500 ≤ resp.statusCode ∧ resp.errBodyDecodes = true)
    (hcred : ∀ i, i < c.options.maxReadRetry.toNat → ∃ cred, credAt c w i = .ok cred) :
    (sentList (runOpAux digest uri c w envelope 0 resps 0).1).length
        = c.options.maxReadRetry.toNat ∧
    sleptList (runOpAux digest uri c w envelope 0 resps 0).1 =
      List.replicate (c.options.maxReadRetry.toNat - 1) c.options.retryInterval ∧
    ∃ h : c.options.maxReadRetry.toNat - 1 < resps.length,
      (runOpAux digest uri c w envelope 0 resps 0).2 =
        .sdkError (decodedErrOf (resps.get ⟨c.options.maxReadRetry.toNat - 1, h⟩)) := by
  have hMn : 1 ≤ c.options.maxReadRetry.toNat := by omega
  set M := c.options.maxReadRetry.toNat with hMdef
  have hk : M - 1 < resps.length := by omega
  have hsplit : resps = resps.take (M - 1) ++ resps.get ⟨M - 1, hk⟩ :: resps.drop (M - 1 + 1) := by
    conv_lhs => rw [← List.take_append_drop (M - 1) resps]
    rw [List.drop_eq_getElem_cons hk]
    rfl
  have htakelen : (resps.take (M - 1)).length = M - 1 :=
    by simp [List.length_take, Nat.min_eq_left (by omega : M - 1 ≤ resps.length)]
  have hM1 : M = (M - 1) + 1 := by omega
  have htakeM : resps.take M = resps.take (M - 1) ++ [resps.get ⟨M - 1, hk⟩] := by
    conv_lhs => rw [hM1]
    rw [List.take_succ, List.getElem?_eq_getElem hk]
    rfl
  have hbad2 : ∀ resp ∈ resps.take (M - 1) ++ [resps.get ⟨M - 1, hk⟩],
      500 ≤ resp.statusCode ∧ resp.errBodyDecodes = true := by
    rw [← htakeM]; exact hbad
  have hcred2 : ∀ i, i ≤ (resps.take (M - 1)).length → ∃ cred, credAt c w (0 + i) = .ok cred := by
    intro i hi
    rw [Nat.zero_add]
    exact hcred i (by omega)
  have hr : ((0 : Nat) : Int) = c.options.maxReadRetry - 1 - (resps.take (M - 1)).length := by
    rw [htakelen]
    have : ((M : Nat) : Int) = c.options.maxReadRetry := by
      rw [hMdef]; exact Int.toNat_of_nonneg (by omega)
    push_cast
    omega
  obtain ⟨hs, hd, ho⟩ := runOpAux_server_errors digest uri c w envelope
    (resps.take (M - 1)) (resps.get ⟨M - 1, hk⟩) (resps.drop (M - 1 + 1)) 0 0 hbad2 hcred2 hr
  rw [htakelen] at hs hd
  refine ⟨?_, ?_, hk, ?_⟩
  · rw [hsplit, hs]
    omega
  · rw [hsplit]
    exact hd
  · conv_lhs => rw [hsplit]
    exact ho

end Wallet
namespace Wallet

/-- C1: a query operation whose scripted responses all have status at
least 500 with bodies decoding as structured errors, on a client with a
positive configured maximum, transmits exactly maxReadRetry requests,
sleeps the configured retry interval between consecutive attempts
(maxReadRetry - 1 sleeps), and returns the classified error of the final
attempt as terminal: the counter reaching the configured maximum minus
one stops any further retry. -/
theorem c1_server_error_retry_budget (digest : List Nat → String) (c : Client) (w : World)
    (envelope : List Nat) (resps : List Response)
    (hM : 1 ≤ c.options.maxReadRetry)
    (hlen : c.options.maxReadRetry.toNat ≤ resps.length)
    (hbad : ∀ resp ∈ resps.take c.options.maxReadRetry.toNat,
      500 ≤ resp.statusCode ∧ resp.errBodyDecodes = true)
    (hcred : ∀ i, i < c.options.maxReadRetry.toNat → ∃ cred, credAt c w i = .ok cred) :
    (sentList (runQuery digest c w envelope resps).1).length = c.options.maxReadRetry.toNat ∧
    sleptList (runQuery digest c w envelope resps).1 =
      List.replicate (c.options.maxReadRetry.toNat - 1) c.options.retryInterval ∧
    ∃ h : c.options.maxReadRetry.toNat - 1 < resps.length,
      (runQuery digest c w envelope resps).2 =
        .sdkError (decodedErrOf (resps.get ⟨c.options.maxReadRetry.toNat - 1, h⟩)) :=
  runOpAux_budget digest "/query" c w envelope resps hM hlen hbad hcred

/-- A retrying client with static credentials and budget 3. -/
def sampleRetryClient : Client := ⟨⟨false, 3, 50000000, false⟩, some sampleCred⟩

/-- A decodable 500 response with a structured error body. -/
def sample500 : Response :=
  ⟨500, "500 Internal Server Error", "", true, none, none, some "boom", true⟩

/-- C1 witness: three scripted 500 responses against a budget of 3 give
three requests, two interval sleeps and the final decoded error. -/
theorem c1_witness :
    (1 ≤ sampleRetryClient.options.maxReadRetry ∧
      sampleRetryClient.options.maxReadRetry.toNat ≤ (List.replicate 3 sample500).length ∧
      (∀ resp ∈ (List.replicate 3 sample500).take sampleRetryClient.options.maxReadRetry.toNat,
        500 ≤ resp.statusCode ∧ resp.errBodyDecodes = true) ∧
      (∀ i, i < sampleRetryClient.options.maxReadRetry.toNat →
        ∃ cred, credAt sampleRetryClient sampleWorld i = .ok cred)) ∧
    ((sentList (runQuery sampleDigest sampleRetryClient sampleWorld []
        (List.replicate 3 sample500)).1).length =
      sampleRetryClient.options.maxReadRetry.toNat ∧
    sleptList (runQuery sampleDigest sampleRetryClient sampleWorld []
        (List.replicate 3 sample500)).1 =
      List.replicate (sampleRetryClient.options.maxReadRetry.toNat - 1)
        sampleRetryClient.options.retryInterval ∧
    ∃ h : sampleRetryClient.options.maxReadRetry.toNat - 1 < (List.replicate 3 sample500).length,
      (runQuery sampleDigest sampleRetryClient sampleWorld [] (List.replicate 3 sample500)).2 =
        .sdkError (decodedErrOf ((List.replicate 3 sample500).get
          ⟨sampleRetryClient.options.maxReadRetry.toNat - 1, h⟩))) :=
  ⟨⟨by decide, by decide, by decide, fun i _ => ⟨sampleCred, rfl⟩⟩,
    c1_server_error_retry_budget sampleDigest sampleRetryClient sampleWorld []
      (List.replicate 3 sample500) (by decide) (by decide) (by decide)
      (fun i _ => ⟨sampleCred, rfl⟩)⟩

/-- C3 counterexample: a command operation receiving 500 responses with
decodable bodies is retried automatically: with a budget of 2 the
investment-request command transmits two requests with a retry-interval
sleep between them, exactly the bounded server-error retry path of
queries, refuting that commands are never placed on it. -/
theorem c3_counterexample :
    (sentList (createInvestmentRequest sampleDigest
        (Client.mk ⟨false, 2, 7, false⟩ (some sampleCred)) sampleWorld []
        [sample500, sample500]).1).length = 2 ∧
    sleptList (createInvestmentRequest sampleDigest
        (Client.mk ⟨false, 2, 7, false⟩ (some sampleCred)) sampleWorld []
        [sample500, sample500]).1 = [7] ∧
    (createInvestmentRequest sampleDigest
        (Client.mk ⟨false, 2, 7, false⟩ (some sampleCred)) sampleWorld []
        [sample500, sample500]).2 = .sdkError (decodedErrOf sample500) := by
  decide

/-- C3 amended: command operations run on the same bounded server-error
retry path as query operations: a command whose scripted responses all
have status at least 500 with decodable bodies transmits exactly
maxReadRetry requests with the configured interval slept between
consecutive attempts and returns the classified error of the final
attempt. -/
theorem c3_command_shares_retry_path (digest : List Nat → String) (c : Client) (w : World)
    (envelope : List Nat) (resps : List Response)
    (hM : 1 ≤ c.options.maxReadRetry)
    (hlen : c.options.maxReadRetry.toNat ≤ resps.length)
    (hbad : ∀ resp ∈ resps.take c.options.maxReadRetry.toNat,
      500 ≤ resp.statusCode ∧ resp.errBodyDecodes = true)
    (hcred : ∀ i, i < c.options.maxReadRetry.toNat → ∃ cred, credAt c w i = .ok cred) :
    (sentList (runCommand digest c w envelope resps).1).length = c.options.maxReadRetry.toNat ∧
    sleptList (runCommand digest c w envelope resps).1 =
      List.replicate (c.options.maxReadRetry.toNat - 1) c.options.retryInterval ∧
    ∃ h : c.options.maxReadRetry.toNat - 1 < resps.length,
      (runCommand digest c w envelope resps).2 =
        .sdkError (decodedErrOf (resps.get ⟨c.options.maxReadRetry.toNat - 1, h⟩)) :=
  runOpAux_budget digest "/command" c w envelope resps hM hlen hbad hcred

/-- C3 witness for the amended claim: two scripted 500 responses against
a budget of 2 on the command route give two requests, one sleep and the
final decoded error. -/
theorem c3_witness :
    (1 ≤ (Client.mk ⟨false, 2, 7, false⟩ (some sampleCred)).options.maxReadRetry ∧
      (∀ i, i < (Client.mk ⟨false, 2, 7, false⟩ (some sampleCred)).options.maxReadRetry.toNat →
        ∃ cred, credAt (Client.mk ⟨false, 2, 7, false⟩ (some sampleCred)) sampleWorld i
          = .ok cred)) ∧
    ((sentList (runCommand sampleDigest (Client.mk ⟨false, 2, 7, false⟩ (some sampleCred))
        sampleWorld [] [sample500, sample500]).1).length =
      (Client.mk ⟨false, 2, 7, false⟩ (some sampleCred)).options.maxReadRetry.toNat ∧
    sleptList (runCommand sampleDigest (Client.mk ⟨false, 2, 7, false⟩ (some sampleCred))
        sampleWorld [] [sample500, sample500]).1 =
      List.replicate ((Client.mk ⟨false, 2, 7, false⟩ (some sampleCred)).options.maxReadRetry.toNat - 1)
        (Client.mk ⟨false, 2, 7, false⟩ (some sampleCred)).options.retryInterval ∧
    ∃ h : (Client.mk ⟨false, 2, 7, false⟩ (some sampleCred)).options.maxReadRetry.toNat - 1 <
        [sample500, sample500].length,
      (runCommand sampleDigest (Client.mk ⟨false, 2, 7, false⟩ (some sampleCred))
          sampleWorld [] [sample500, sample500]).2 =
        .sdkError (decodedErrOf ([sample500, sample500].get
          ⟨(Client.mk ⟨false, 2, 7, false⟩ (some sampleCred)).options.maxReadRetry.toNat - 1, h⟩))) :=
  ⟨⟨by decide, fun i _ => ⟨sampleCred, rfl⟩⟩,
    c3_command_shares_retry_path sampleDigest (Client.mk ⟨false, 2, 7, false⟩ (some sampleCred))
      sampleWorld [] [sample500, sample500] (by decide) (by decide) (by decide)
      (fun i _ => ⟨sampleCred, rfl⟩)⟩

end Wallet
namespace Wallet

/-- What holds of every transmitted request of a run started at attempt a:
its body is the trimmed envelope and its token was built at some attempt
j at or after a, from the credential step, clock and nonce of attempt j. -/
def sentSpec (digest : List Nat → String) (uri : String) (c : Client) (w : World)
    (envelope : List Nat) (a : Nat) (tok : Token) (body : List Nat) : Prop :=
  body = trimRightNewline envelope ∧
  ∃ j cred, a ≤ j ∧ credAt c w j = .ok cred ∧
    tok = newToken digest cred.keyID uri (trimRightNewline envelope) hourNs
      c.options.hasLoader (w.now j) (w.nonce j)

theorem sentSpec_mono (digest : List Nat → String) (uri : String) (c : Client) (w : World)
    (envelope : List Nat) (a b : Nat) (tok : Token) (body : List Nat)
    (hab : a ≤ b) (h : sentSpec digest uri c w envelope b tok body) :
    sentSpec digest uri c w envelope a tok body := by
  obtain ⟨h1, j, cred, hj, hc, ht⟩ := h
  exact ⟨h1, j, cred, Nat.le_trans hab hj, hc, ht⟩

/-- Every transmitted request of a run satisfies sentSpec: the exact
trimmed envelope is the body and the token is rebuilt at its own attempt
from freshly obtained credentials, the attempt clock and the attempt
nonce. -/
theorem runOpAux_sent_mem (digest : List Nat → String) (uri : String) (c : Client)
    (w : World) (envelope : List Nat) :
    ∀ (resps : List Response) (a r : Nat) (tok : Token) (body : List Nat),
    Event.sent tok body ∈ (runOpAux digest uri c w envelope a resps r).1 →
    sentSpec digest uri c w envelope a tok body := by
  intro resps
  induction resps with
  | nil =>
    intro a r tok body hmem
    cases hcc : credAt c w a with
    | err m =>
      simp only [runOpAux, hcc, List.not_mem_nil] at hmem
    | ok cred =>
      simp only [runOpAux, hcc, List.mem_singleton, Event.sent.injEq] at hmem
      exact ⟨hmem.2, a, cred, Nat.le_refl a, hcc, hmem.1⟩
  | cons resp rest ih =>
    intro a r tok body hmem
    cases hcc : credAt c w a with
    | err m =>
      simp only [runOpAux, hcc, List.not_mem_nil] at hmem
    | ok cred =>
      have hsing : Event.sent tok body ∈ [Event.sent (newToken digest cred.keyID uri
            (trimRightNewline envelope) hourNs c.options.hasLoader (w.now a) (w.nonce a))
            (trimRightNewline envelope)] →
          sentSpec digest uri c w envelope a tok body := by
        intro hm
        simp only [List.mem_singleton, Event.sent.injEq] at hm
        exact ⟨hm.2, a, cred, Nat.le_refl a, hcc, hm.1⟩
      have hcons : ∀ (d : Int) (r2 : Nat),
          Event.sent tok body ∈ (Event.sent (newToken digest cred.keyID uri
              (trimRightNewline envelope) hourNs c.options.hasLoader (w.now a) (w.nonce a))
              (trimRightNewline envelope) :: Event.slept d ::
              (runOpAux digest uri c w envelope (a + 1) rest r2).1) →
          sentSpec digest uri c w envelope a tok body := by
        intro d r2 hm
        rcases List.mem_cons.mp hm with he | hm2
        · exact hsing (List.mem_singleton.mpr he)
        · rcases List.mem_cons.mp hm2 with he | hm3
          · exact absurd he (by simp)
          · exact sentSpec_mono digest uri c w envelope a (a + 1) tok body
              (Nat.le_succ a) (ih (a + 1) r2 tok body hm3)
      simp only [runOpAux, hcc] at hmem
      by_cases h4 : 400 ≤ resp.statusCode
      · rw [if_pos h4] at hmem
        by_cases hdec : resp.errBodyDecodes = true
        · rw [if_pos hdec] at hmem
          by_cases h429 : resp.statusCode = 429
          · rw [if_pos h429] at hmem
            cases hra : parseInt64 resp.retryAfter with
            | none =>
              rw [hra] at hmem
              exact hsing hmem
            | some i =>
              rw [hra] at hmem
              exact hcons (int64wrap (i * 1000000000)) r hmem
          · rw [if_neg h429] at hmem
            by_cases h5 : 500 ≤ resp.statusCode
            · rw [if_pos h5] at hmem
              by_cases hg : c.options.maxReadRetry - 1 ≤ (r : Int)
              · rw [if_pos hg] at hmem
                exact hsing hmem
              · rw [if_neg hg] at hmem
                exact hcons c.options.retryInterval (r + 1) hmem
            · rw [if_neg h5] at hmem
              exact hsing hmem
        · rw [if_neg hdec] at hmem
          exact hsing hmem
      · rw [if_neg h4] at hmem
        exact hsing hmem

end Wallet
namespace Wallet

theorem rangeMapShift (g : Nat → String) (a m : Nat) :
    (List.range (m + 1)).map (fun j => g (a + j)) =
      g a :: (List.range m).map (fun j => g (a + 1 + j)) := by
  rw [List.range_succ_eq_map]
  simp only [List.map_cons, Nat.add_zero, List.map_map]
  congr 1
  apply List.map_congr_left
  intro j hj
  simp only [Function.comp]
  congr 1
  omega

/-- The nonces of the transmitted requests of a run started at attempt a
are exactly the world nonces of the consecutive attempts a, a+1, ...,
one per request in order. -/
theorem runOpAux_nonce_positions (digest : List Nat → String) (uri : String) (c : Client)
    (w : World) (envelope : List Nat) :
    ∀ (resps : List Response) (a r : Nat), ∃ m,
    ((sentList (runOpAux digest uri c w envelope a resps r).1).map (fun s => s.1.nonce))
      = (List.range m).map (fun j => w.nonce (a + j)) := by
  intro resps
  induction resps with
  | nil =>
    intro a r
    cases hcc : credAt c w a with
    | err m =>
      refine ⟨0, ?_⟩
      simp [runOpAux, hcc, sentList_nil]
    | ok cred =>
      refine ⟨1, ?_⟩
      simp [runOpAux, hcc, sentList_sent, sentList_nil, newToken, List.range_succ]
  | cons resp rest ih =>
    intro a r
    cases hcc : credAt c w a with
    | err m =>
      refine ⟨0, ?_⟩
      simp [runOpAux, hcc, sentList_nil]
    | ok cred =>
      have hterm : ∀ o : QOutcome,
          ((sentList ([Event.sent (newToken digest cred.keyID uri
              (trimRightNewline envelope) hourNs c.options.hasLoader (w.now a) (w.nonce a))
              (trimRightNewline envelope)], o).1).map (fun s => s.1.nonce))
            = (List.range 1).map (fun j => w.nonce (a + j)) := by
        intro o
        simp [sentList_sent, sentList_nil, newToken, List.range_succ]
      have hstep : ∀ (d : Int) (r2 : Nat), ∃ m,
          ((sentList (Event.sent (newToken digest cred.keyID uri
              (trimRightNewline envelope) hourNs c.options.hasLoader (w.now a) (w.nonce a))
              (trimRightNewline envelope) :: Event.slept d ::
              (runOpAux digest uri c w envelope (a + 1) rest r2).1)).map (fun s => s.1.nonce))
            = (List.range m).map (fun j => w.nonce (a + j)) := by
        intro d r2
        obtain ⟨m, hm⟩ := ih (a + 1) r2
        refine ⟨m + 1, ?_⟩
        rw [rangeMapShift]
        simp only [sentList_sent, sentList_slept, List.map_cons, hm]
        simp [newToken]
      simp only [runOpAux, hcc]
      by_cases h4 : 400 ≤ resp.statusCode
      · rw [if_pos h4]
        by_cases hdec : resp.errBodyDecodes = true
        · rw [if_pos hdec]
          by_cases h429 : resp.statusCode = 429
          · rw [if_pos h429]
            cases hra : parseInt64 resp.retryAfter with
            | none =>
              exact ⟨1, hterm _⟩
            | some i =>
              exact hstep (int64wrap (i * 1000000000)) r
          · rw [if_neg h429]
            by_cases h5 : 500 ≤ resp.statusCode
            · rw [if_pos h5]
              by_cases hg : c.options.maxReadRetry - 1 ≤ (r : Int)
              · rw [if_pos hg]
                exact ⟨1, hterm _⟩
              · rw [if_neg hg]
                exact hstep c.options.retryInterval (r + 1)
            · rw [if_neg h5]
              exact ⟨1, hterm _⟩
        · rw [if_neg hdec]
          exact ⟨1, hterm _⟩
      · rw [if_neg h4]
        exact ⟨1, hterm _⟩

/-- A pair is in the sentList of a trace exactly when the corresponding
sent event is in the trace. -/
theorem mem_sentList (tr : List Event) (t : Token) (b : List Nat) :
    (t, b) ∈ sentList tr ↔ Event.sent t b ∈ tr := by
  induction tr with
  | nil => simp [sentList_nil]
  | cons e l ih =>
    cases e with
    | sent t2 b2 =>
      simp [sentList_sent, List.mem_cons, ih, Prod.mk.injEq, Event.sent.injEq]
    | slept d =>
      simp [sentList_slept, List.mem_cons, ih]

end Wallet
namespace Wallet

/-- C7: on every attempt of a query operation, including every retry
whether triggered by rate limiting or by a server error, the credential
step is performed afresh and the claim set is rebuilt from the clock and
nonce of that attempt; when the world draws pairwise distinct nonces the tokens
attached to the attempts are pairwise distinct, so a signed token is
never reused across attempts. -/
theorem c7_fresh_token_every_attempt (digest : List Nat → String) (c : Client) (w : World)
    (envelope : List Nat) (resps : List Response)
    (hinj : Function.Injective w.nonce) :
    ((sentList (runQuery digest c w envelope resps).1).map (fun s => s.1)).Nodup ∧
    ∀ s ∈ sentList (runQuery digest c w envelope resps).1,
      ∃ j cred, credAt c w j = .ok cred ∧
        s.1 = newToken digest cred.keyID "/query" (trimRightNewline envelope) hourNs
          c.options.hasLoader (w.now j) (w.nonce j) := by
  constructor
  · obtain ⟨m, hm⟩ := runOpAux_nonce_positions digest "/query" c w envelope resps 0 0
    have hm2 : (((sentList (runQuery digest c w envelope resps).1).map (fun s => s.1)).map
        (fun t => t.nonce)) = (List.range m).map (fun j => w.nonce (0 + j)) := by
      rw [List.map_map]
      exact hm
    have hnd : ((((sentList (runQuery digest c w envelope resps).1).map (fun s => s.1)).map
        (fun t => t.nonce))).Nodup := by
      rw [hm2]
      refine List.Nodup.map ?_ (List.nodup_range m)
      intro i j hij
      have := hinj hij
      omega
    exact hnd.of_map _
  · intro s hs
    obtain ⟨t, b⟩ := s
    have hmem := (mem_sentList _ t b).mp hs
    obtain ⟨h1, j, cred, hj, hc, ht⟩ :=
      runOpAux_sent_mem digest "/query" c w envelope resps 0 0 t b hmem
    exact ⟨j, cred, hc, ht⟩

/-- C7 witness: a run with one server-error retry and a terminal 404
produces pairwise distinct tokens, each rebuilt at its own attempt. -/
theorem c7_witness :
    Function.Injective sampleWorld.nonce ∧
    (((sentList (runQuery sampleDigest sampleStaticClient sampleWorld []
        [sample500, sample404]).1).map (fun s => s.1)).Nodup ∧
    ∀ s ∈ sentList (runQuery sampleDigest sampleStaticClient sampleWorld []
        [sample500, sample404]).1,
      ∃ j cred, credAt sampleStaticClient sampleWorld j = .ok cred ∧
        s.1 = newToken sampleDigest cred.keyID "/query" (trimRightNewline []) hourNs
          sampleStaticClient.options.hasLoader (sampleWorld.now j) (sampleWorld.nonce j)) := by
  have hinj : Function.Injective sampleWorld.nonce := by
    intro i j h
    have h3 := congrArg (fun s : String => s.data.length) h
    simp only [sampleWorld, String.length] at h3
    simp at h3
    omega
  exact ⟨hinj, c7_fresh_token_every_attempt sampleDigest sampleStaticClient sampleWorld []
    [sample500, sample404] hinj⟩

/-- C8: every transmitted request body of a query operation is exactly
the serialized envelope with its trailing newline trimmed, and the
bodyHash bound into the claim set of that request is the digest of
exactly those transmitted bytes. -/
theorem c8_bodyhash_binds_transmitted_bytes (digest : List Nat → String) (c : Client)
    (w : World) (envelope : List Nat) (resps : List Response) (tok : Token) (body : List Nat)
    (hmem : Event.sent tok body ∈ (runQuery digest c w envelope resps).1) :
    body = trimRightNewline envelope ∧ tok.bodyHash = digest body := by
  obtain ⟨h1, j, cred, hj, hc, ht⟩ :=
    runOpAux_sent_mem digest "/query" c w envelope resps 0 0 tok body hmem
  refine ⟨h1, ?_⟩
  rw [ht, h1]
  rfl

/-- C8 witness: the request transmitted for the envelope 104 10 carries
the trimmed bytes 104 and a token whose bodyHash is the digest of those
bytes. -/
theorem c8_witness :
    (Event.sent (newToken sampleDigest sampleCred.keyID "/query" (trimRightNewline [104, 10])
        hourNs sampleStaticClient.options.hasLoader (sampleWorld.now 0) (sampleWorld.nonce 0))
        (trimRightNewline [104, 10]) ∈
      (runQuery sampleDigest sampleStaticClient sampleWorld [104, 10] []).1) ∧
    (trimRightNewline [104, 10] = trimRightNewline [104, 10] ∧
      (newToken sampleDigest sampleCred.keyID "/query" (trimRightNewline [104, 10])
        hourNs sampleStaticClient.options.hasLoader (sampleWorld.now 0)
        (sampleWorld.nonce 0)).bodyHash = sampleDigest (trimRightNewline [104, 10])) :=
  ⟨by decide, c8_bodyhash_binds_transmitted_bytes sampleDigest sampleStaticClient sampleWorld
    [104, 10] [] _ _ (by decide)⟩

end Wallet
